import Mathlib

/-!
Shallow embedding of the cloth simulation core (`src/vec3.rs` and
`src/simulation.rs`): the `Vec3` algebra, the `Mass` particle, the
`Spring` constraint and the `Cloth` orchestrator with its grid
initialisation and per-step `update`.

Floating-point scalars are modelled as exact rationals.  The square-root
function on scalars is kept abstract: every definition is parameterised
over a function `sq : ℚ → ℚ` standing for the machine `sqrt`; theorems
that depend on particular square-root values (such as `sq 0 = 0`, which
every square-root implementation satisfies) take them as hypotheses, and
concrete evaluations instantiate `sq` with `Rat.sqrt`.

Rust's panicking slice indexing in `Spring::apply_force` is modelled by
returning `Option`: `none` is an index-out-of-bounds panic.  `usize`
arithmetic is modelled by `Nat`; every subtraction performed by the code
is guarded by the very condition that rules out underflow, except the
`cols - 1` / `rows - 1` / `cols - 2` / `rows - 2` bounds themselves,
which a zero dimension never reaches because the enclosing loop is then
empty, so truncated `Nat` subtraction agrees with `usize` on all
evaluated expressions.
-/

namespace ClothSim

/-- Vector of three scalars, from `src/vec3.rs`. -/
structure Vec3 where
  x : ℚ
  y : ℚ
  z : ℚ
deriving DecidableEq

namespace Vec3

/-- Zero vector, `Vec3::zero()` / `Vec3::ZERO()`. -/
def zero : Vec3 := ⟨0, 0, 0⟩

end Vec3

instance : Add Vec3 := ⟨fun a b => ⟨a.x + b.x, a.y + b.y, a.z + b.z⟩⟩

instance : Sub Vec3 := ⟨fun a b => ⟨a.x - b.x, a.y - b.y, a.z - b.z⟩⟩

instance : Neg Vec3 := ⟨fun a => ⟨-a.x, -a.y, -a.z⟩⟩

instance : HMul Vec3 ℚ Vec3 := ⟨fun v s => ⟨v.x * s, v.y * s, v.z * s⟩⟩

instance : HMul ℚ Vec3 Vec3 := ⟨fun s v => ⟨s * v.x, s * v.y, s * v.z⟩⟩

instance : HDiv Vec3 ℚ Vec3 := ⟨fun v s => ⟨v.x / s, v.y / s, v.z / s⟩⟩

namespace Vec3

/-- Length `sqrt(x*x + y*y + z*z)`, with `sq` as the square root. -/
def length (sq : ℚ → ℚ) (v : Vec3) : ℚ := sq (v.x * v.x + v.y * v.y + v.z * v.z)

/-- Normalisation with the explicit zero-length guard of `Vec3::normalize`. -/
def normalize (sq : ℚ → ℚ) (v : Vec3) : Vec3 :=
  let len := v.length sq
  if len > 0 then v / len else Vec3.zero

end Vec3

/-- Gravity constant of `src/simulation.rs`: `(0.0, -9.81, 0.0)`. -/
def GRAVITY : Vec3 := ⟨0, -981/100, 0⟩

/-- Point mass, from `src/simulation.rs`. -/
structure Mass where
  position : Vec3
  velocity : Vec3
  acceleration : Vec3
  pinned : Bool
deriving DecidableEq

namespace Mass

/-- Constructor `Mass::new`. -/
def new (position : Vec3) (pinned : Bool) : Mass :=
  { position := position, velocity := Vec3.zero, acceleration := Vec3.zero, pinned := pinned }

/-- Force accumulation `Mass::apply_force`: pinned particles discard forces. -/
def applyForce (m : Mass) (force : Vec3) : Mass :=
  if !m.pinned then { m with acceleration := m.acceleration + force } else m

/-- Semi-implicit Euler integration `Mass::update`: no-op on pinned particles. -/
def update (m : Mass) (dt mass : ℚ) : Mass :=
  if !m.pinned then
    let new_acc := m.acceleration / mass
    let velocity := m.velocity + new_acc * dt
    { m with
      velocity := velocity
      position := m.position + velocity * dt
      acceleration := Vec3.zero }
  else m

end Mass

instance : Inhabited Mass := ⟨Mass.new Vec3.zero false⟩

/-- Spring constraint between two particle indices, from `src/simulation.rs`. -/
structure Spring where
  a : ℕ
  b : ℕ
  rest_length : ℚ
  stiffness : ℚ
deriving DecidableEq

namespace Spring

/-- Constructor `Spring::new`. -/
def new (a b : ℕ) (rest_length stiffness : ℚ) : Spring :=
  { a := a, b := b, rest_length := rest_length, stiffness := stiffness }

end Spring

/-- The Hooke force `stiffness * (length - rest_length) * distance.normalize()`
computed by `Spring::apply_force` from the current particle positions. -/
def springForce (sq : ℚ → ℚ) (s : Spring) (masses : List Mass) : Vec3 :=
  let distance := (masses.getD s.b default).position - (masses.getD s.a default).position
  (s.stiffness * (distance.length sq - s.rest_length)) * distance.normalize sq

namespace Spring

/-- Body of `Spring::apply_force`: read both endpoints, apply the force to
endpoint `a` and its negation to endpoint `b`.  Rust indexes the slice
directly and panics when an endpoint is out of bounds; the panic is
modelled as `none`. -/
def applyForce (sq : ℚ → ℚ) (s : Spring) (masses : List Mass) : Option (List Mass) :=
  if s.a < masses.length ∧ s.b < masses.length then
    let force := springForce sq s masses
    let m1 := masses.set s.a ((masses.getD s.a default).applyForce force)
    some (m1.set s.b ((m1.getD s.b default).applyForce (-force)))
  else none

end Spring

/-- Grid of point masses built by `Cloth::init`: particle `(i, j)` sits at
`(j*spacing, 0, i*spacing)`, and the two top corners `(0, 0)` and
`(0, cols-1)` are pinned. -/
def initMasses (rows cols : ℕ) (spacing : ℚ) : List Mass :=
  (List.range rows).flatMap fun (i : ℕ) =>
    (List.range cols).map fun (j : ℕ) =>
      let new_point := Mass.new ⟨(j : ℚ) * spacing, 0, (i : ℚ) * spacing⟩ false
      if i = 0 ∧ j = 0 ∨ i = 0 ∧ j = cols - 1 then
        { new_point with pinned := true }
      else new_point

/-- Structural springs pushed by `Cloth::init` for cell `(i, j)`, in the
program's condition order: right, left, up, down neighbours. -/
def structuralAt (rows cols : ℕ) (spacing stiffness : ℚ) (i j : ℕ) : List Spring :=
  let index := i * cols + j
  (if j < cols - 1 then [Spring.new index (index + 1) spacing stiffness] else []) ++
  (if j > 0 then [Spring.new index (index - 1) spacing stiffness] else []) ++
  (if i > 0 then [Spring.new index (index - cols) spacing stiffness] else []) ++
  (if i < rows - 1 then [Spring.new index (index + cols) spacing stiffness] else [])

/-- Shear springs pushed by `Cloth::init` for cell `(i, j)`.  The fourth
guard reproduces the source verbatim: it tests `i < cols - 1` where the
other diagonal guards test the row axis against `rows`. -/
def shearAt (sq : ℚ → ℚ) (rows cols : ℕ) (spacing stiffness : ℚ) (i j : ℕ) : List Spring :=
  let index := i * cols + j
  let shear_rest_length := sq (2 * spacing * spacing)
  (if j > 0 ∧ i > 0 then
    [Spring.new index (index - cols - 1) shear_rest_length stiffness] else []) ++
  (if j < cols - 1 ∧ i > 0 then
    [Spring.new index (index - cols + 1) shear_rest_length stiffness] else []) ++
  (if j > 0 ∧ i < rows - 1 then
    [Spring.new index (index + cols - 1) shear_rest_length stiffness] else []) ++
  (if j < cols - 1 ∧ i < cols - 1 then
    [Spring.new index (index + cols + 1) shear_rest_length stiffness] else [])

/-- Bend springs pushed by `Cloth::init` for cell `(i, j)`, in the program's
condition order. -/
def bendAt (rows cols : ℕ) (spacing stiffness : ℚ) (i j : ℕ) : List Spring :=
  let index := i * cols + j
  let bend_rest_length := spacing * 2
  (if i > 1 then [Spring.new index (index - 2 * cols) bend_rest_length stiffness] else []) ++
  (if j < cols - 2 then [Spring.new index (index + 2) bend_rest_length stiffness] else []) ++
  (if i < rows - 2 then [Spring.new index (index + 2 * cols) bend_rest_length stiffness] else []) ++
  (if j > 1 then [Spring.new index (index - 2) bend_rest_length stiffness] else [])

/-- Row-major traversal of the grid cells collecting the springs pushed by
each cell, matching the nested loops of `Cloth::init`. -/
def gridSprings (rows cols : ℕ) (f : ℕ → ℕ → List Spring) : List Spring :=
  (List.range rows).flatMap fun i => (List.range cols).flatMap fun j => f i j

/-- The cloth state: particle list, the three spring lists and the grid
dimensions, from `src/simulation.rs`. -/
structure Cloth where
  masses : List Mass
  structural_springs : List Spring
  shear_springs : List Spring
  bend_springs : List Spring
  rows : ℕ
  cols : ℕ
deriving DecidableEq

namespace Cloth

/-- Constructor `Cloth::new`, which runs `Cloth::init`.  Note the argument
order of the source: `cols` first, then `rows`.  No validation of any
parameter is performed. -/
def new (sq : ℚ → ℚ) (cols rows : ℕ) (spacing stiffness : ℚ) : Cloth :=
  { masses := initMasses rows cols spacing
    structural_springs := gridSprings rows cols (structuralAt rows cols spacing stiffness)
    shear_springs := gridSprings rows cols (shearAt sq rows cols spacing stiffness)
    bend_springs := gridSprings rows cols (bendAt rows cols spacing stiffness)
    rows := rows
    cols := cols }

end Cloth

/-- Sequential application of a list of springs to the particle list, the
`for spring in &springs` loops of `Cloth::apply_forces`; a `none` from any
spring (an out-of-bounds panic) aborts the whole pass. -/
def applySprings (sq : ℚ → ℚ) (springs : List Spring) (masses : List Mass) :
    Option (List Mass) :=
  match springs with
  | [] => some masses
  | s :: rest => (s.applyForce sq masses).bind (applySprings sq rest)

/-- The per-particle loop at the end of `Cloth::apply_forces`: gravity, then
the damping force `-damping * velocity`. -/
def gravityAndDamping (damping : ℚ) (masses : List Mass) : List Mass :=
  masses.map fun m =>
    let m1 := m.applyForce GRAVITY
    m1.applyForce ((-damping) * m1.velocity)

namespace Cloth

/-- Force pass `Cloth::apply_forces`: structural, then shear, then bend
spring forces, then gravity and damping per particle in index order. -/
def applyForces (sq : ℚ → ℚ) (c : Cloth) (damping : ℚ) : Option (List Mass) :=
  ((applySprings sq c.structural_springs c.masses).bind fun ms1 =>
    (applySprings sq c.shear_springs ms1).bind fun ms2 =>
      applySprings sq c.bend_springs ms2).map (gravityAndDamping damping)

/-- Per-step advance `Cloth::update`: the force pass, then integration of
every particle.  The `wind` and `wind_speed` parameters are received, as in
the source, and not used by the body. -/
def update (sq : ℚ → ℚ) (c : Cloth) (dt damping mass_value : ℚ)
    (wind : Vec3) (wind_speed : ℚ) : Option Cloth :=
  (c.applyForces sq damping).map fun ms =>
    { c with masses := ms.map fun m => m.update dt mass_value }

end Cloth

/-- Parameters of one `step()` call. -/
structure StepParams where
  dt : ℚ
  damping : ℚ
  mass_value : ℚ
  wind : Vec3
  wind_speed : ℚ
deriving DecidableEq

namespace Cloth

/-- A sequence of `step()` calls with per-call parameters. -/
def run (sq : ℚ → ℚ) (c : Cloth) : List StepParams → Option Cloth
  | [] => some c
  | p :: ps =>
      (c.update sq p.dt p.damping p.mass_value p.wind p.wind_speed).bind fun c' =>
        c'.run sq ps

/-- N-fold iteration of `step()` with fixed parameters. -/
def runN (sq : ℚ → ℚ) (dt damping mass_value : ℚ) (wind : Vec3) (wind_speed : ℚ) :
    ℕ → Cloth → Option Cloth
  | 0, c => some c
  | n + 1, c =>
      (c.update sq dt damping mass_value wind wind_speed).bind
        (runN sq dt damping mass_value wind wind_speed n)

/-- The particle positions, the read accessor the renderer consumes. -/
def positions (c : Cloth) : List Vec3 := c.masses.map Mass.position

/-- The step pipeline spelled out as the specification's step ordering,
minus any wind force: all structural spring forces, then all shear spring
forces, then all bend spring forces, then gravity and damping per particle
in index order, then integration of every particle. -/
def stepSpecNoWind (sq : ℚ → ℚ) (c : Cloth) (dt damping mass_value : ℚ) : Option Cloth :=
  (applySprings sq c.structural_springs c.masses).bind fun ms1 =>
    (applySprings sq c.shear_springs ms1).bind fun ms2 =>
      (applySprings sq c.bend_springs ms2).bind fun ms3 =>
        some { c with
          masses := (gravityAndDamping damping ms3).map fun m => m.update dt mass_value }

end Cloth

/-- Kinematic view of a particle: position, velocity and pinned flag.  The
force pass may only change the remaining field, the acceleration. -/
def Mass.kin (m : Mass) : Vec3 × Vec3 × Bool := (m.position, m.velocity, m.pinned)

/-- Mutable simulation state of a cloth: the particle list and the three
spring lists.  `Cloth.update` reads nothing else. -/
def Cloth.mstate (c : Cloth) : List Mass × List Spring × List Spring × List Spring :=
  (c.masses, c.structural_springs, c.shear_springs, c.bend_springs)

/-- Concrete square root used to instantiate the abstract `sq` parameter in
witnesses and counterexamples; exact on the perfect squares the concrete
runs evaluate it at. -/
def sqW : ℚ → ℚ := Rat.sqrt

/-- A concrete well-formed 2-by-2 cloth used by witnesses. -/
def cloth22 : Cloth := Cloth.new sqW 2 2 1 1

/-- Two free particles one unit more than rest length apart, used to witness
the Newton third-law theorem on a concrete spring. -/
def demoMasses : List Mass := [Mass.new ⟨0, 0, 0⟩ false, Mass.new ⟨3, 0, 0⟩ false]

/-! Lemmas about `Mass`. -/

lemma Mass.kin_applyForce (m : Mass) (f : Vec3) : (m.applyForce f).kin = m.kin := by
  cases h : m.pinned <;> simp [Mass.applyForce, Mass.kin, h]

lemma Mass.applyForce_of_pinned {m : Mass} (h : m.pinned = true) (f : Vec3) :
    m.applyForce f = m := by
  simp [Mass.applyForce, h]

lemma Mass.update_of_pinned {m : Mass} (h : m.pinned = true) (dt mv : ℚ) :
    m.update dt mv = m := by
  simp [Mass.update, h]

lemma Mass.update_acceleration {m : Mass} (h : m.acceleration = Vec3.zero) (dt mv : ℚ) :
    (m.update dt mv).acceleration = Vec3.zero := by
  cases hp : m.pinned <;> simp [Mass.update, hp, h]

lemma Mass.pinned_accZero_applyForce {m : Mass}
    (h : m.pinned = true → m.acceleration = Vec3.zero) (f : Vec3) :
    (m.applyForce f).pinned = true → (m.applyForce f).acceleration = Vec3.zero := by
  cases hp : m.pinned
  · simp [Mass.applyForce, hp]
  · simp [Mass.applyForce, hp, h hp]

/-! Lemmas about setting a force-updated particle at one index. -/

lemma kin_set_applyForce (ms : List Mass) (n : ℕ) (hn : n < ms.length) (f : Vec3) (i : ℕ) :
    ((ms.set n ((ms.getD n default).applyForce f))[i]?).map Mass.kin = (ms[i]?).map Mass.kin := by
  by_cases hi : n = i
  · subst hi
    rw [List.getElem?_set_self hn, List.getElem?_eq_getElem hn,
      List.getD_eq_getElem?_getD, List.getElem?_eq_getElem hn]
    simp [Mass.kin_applyForce]
  · rw [List.getElem?_set_ne hi]

lemma pinned_set_applyForce (ms : List Mass) (n : ℕ) (f : Vec3) {i : ℕ} {m : Mass}
    (hm : ms[i]? = some m) (hp : m.pinned = true) :
    (ms.set n ((ms.getD n default).applyForce f))[i]? = some m := by
  by_cases hi : n = i
  · subst hi
    have hn : n < ms.length := (List.getElem?_eq_some_iff.mp hm).1
    rw [List.getElem?_set_self hn, List.getD_eq_getElem?_getD, hm]
    simp [Mass.applyForce_of_pinned hp]
  · rw [List.getElem?_set_ne hi, hm]

lemma forall_set_applyForce {P : Mass → Prop} (hP : ∀ m f, P m → P (m.applyForce f))
    (ms : List Mass) (n : ℕ) (hn : n < ms.length) (f : Vec3)
    (hall : ∀ m ∈ ms, P m) :
    ∀ m' ∈ ms.set n ((ms.getD n default).applyForce f), P m' := by
  intro m' hmem
  rcases List.mem_or_eq_of_mem_set hmem with h | h
  · exact hall m' h
  · subst h
    refine hP _ _ (hall _ ?_)
    rw [List.getD_eq_getElem?_getD, List.getElem?_eq_getElem hn]
    exact List.getElem_mem hn

/-! Lemmas about `Spring.applyForce`. -/

lemma Spring.applyForce_bounds {sq : ℚ → ℚ} {s : Spring} {ms ms' : List Mass}
    (h : s.applyForce sq ms = some ms') : s.a < ms.length ∧ s.b < ms.length := by
  unfold Spring.applyForce at h
  split at h
  · assumption
  · exact absurd h (by simp)

lemma Spring.applyForce_eq {sq : ℚ → ℚ} {s : Spring} {ms ms' : List Mass}
    (h : s.applyForce sq ms = some ms') :
    ms' = (ms.set s.a ((ms.getD s.a default).applyForce (springForce sq s ms))).set s.b
      (((ms.set s.a ((ms.getD s.a default).applyForce (springForce sq s ms))).getD s.b
        default).applyForce (-springForce sq s ms)) := by
  unfold Spring.applyForce at h
  split at h
  · exact (Option.some.inj h).symm
  · exact absurd h (by simp)

lemma Spring.applyForce_isSome {sq : ℚ → ℚ} {s : Spring} {ms : List Mass}
    (ha : s.a < ms.length) (hb : s.b < ms.length) : (s.applyForce sq ms).isSome := by
  unfold Spring.applyForce
  split
  · simp
  · rename_i hcontra
    exact absurd (⟨ha, hb⟩ : _ ∧ _) hcontra

lemma Spring.applyForce_length {sq : ℚ → ℚ} {s : Spring} {ms ms' : List Mass}
    (h : s.applyForce sq ms = some ms') : ms'.length = ms.length := by
  rw [Spring.applyForce_eq h]
  simp

lemma Spring.applyForce_kin {sq : ℚ → ℚ} {s : Spring} {ms ms' : List Mass}
    (h : s.applyForce sq ms = some ms') (i : ℕ) :
    (ms'[i]?).map Mass.kin = (ms[i]?).map Mass.kin := by
  obtain ⟨ha, hb⟩ := Spring.applyForce_bounds h
  rw [Spring.applyForce_eq h]
  rw [kin_set_applyForce _ s.b (by simpa using hb), kin_set_applyForce _ s.a ha]

lemma Spring.applyForce_pinned {sq : ℚ → ℚ} {s : Spring} {ms ms' : List Mass}
    (h : s.applyForce sq ms = some ms') {i : ℕ} {m : Mass}
    (hm : ms[i]? = some m) (hp : m.pinned = true) : ms'[i]? = some m := by
  rw [Spring.applyForce_eq h]
  exact pinned_set_applyForce _ _ _ (pinned_set_applyForce _ _ _ hm hp) hp

lemma Spring.applyForce_forall {P : Mass → Prop} (hP : ∀ m f, P m → P (m.applyForce f))
    {sq : ℚ → ℚ} {s : Spring} {ms ms' : List Mass}
    (h : s.applyForce sq ms = some ms') (hall : ∀ m ∈ ms, P m) : ∀ m' ∈ ms', P m' := by
  obtain ⟨ha, hb⟩ := Spring.applyForce_bounds h
  rw [Spring.applyForce_eq h]
  exact forall_set_applyForce hP _ s.b (by simpa using hb) _
    (forall_set_applyForce hP _ s.a ha _ hall)

/-! Lemmas about `applySprings`. -/

lemma applySprings_length {sq : ℚ → ℚ} {springs : List Spring} {ms ms' : List Mass}
    (h : applySprings sq springs ms = some ms') : ms'.length = ms.length := by
  induction springs generalizing ms with
  | nil => cases h; rfl
  | cons s rest ih =>
    unfold applySprings at h
    rcases ho : s.applyForce sq ms with _ | ms1
    · rw [ho] at h; exact absurd h (by simp)
    · rw [ho] at h
      simp only [Option.some_bind] at h
      rw [ih h, Spring.applyForce_length ho]

lemma applySprings_isSome {sq : ℚ → ℚ} {springs : List Spring} {ms : List Mass}
    (hall : ∀ s ∈ springs, s.a < ms.length ∧ s.b < ms.length) :
    (applySprings sq springs ms).isSome := by
  induction springs generalizing ms with
  | nil => simp [applySprings]
  | cons s rest ih =>
    obtain ⟨ha, hb⟩ := hall s (by simp)
    rcases ho : s.applyForce sq ms with _ | ms1
    · exact absurd (ho ▸ Spring.applyForce_isSome ha hb) (by simp)
    · have hlen := Spring.applyForce_length ho
      unfold applySprings
      rw [ho]
      simp only [Option.some_bind]
      exact ih fun t ht => hlen ▸ hall t (List.mem_cons_of_mem _ ht)

lemma applySprings_kin {sq : ℚ → ℚ} {springs : List Spring} {ms ms' : List Mass}
    (h : applySprings sq springs ms = some ms') (i : ℕ) :
    (ms'[i]?).map Mass.kin = (ms[i]?).map Mass.kin := by
  induction springs generalizing ms with
  | nil => cases h; rfl
  | cons s rest ih =>
    unfold applySprings at h
    rcases ho : s.applyForce sq ms with _ | ms1
    · rw [ho] at h; exact absurd h (by simp)
    · rw [ho] at h
      simp only [Option.some_bind] at h
      rw [ih h, Spring.applyForce_kin ho]

lemma applySprings_pinned {sq : ℚ → ℚ} {springs : List Spring} {ms ms' : List Mass}
    (h : applySprings sq springs ms = some ms') {i : ℕ} {m : Mass}
    (hm : ms[i]? = some m) (hp : m.pinned = true) : ms'[i]? = some m := by
  induction springs generalizing ms with
  | nil => cases h; exact hm
  | cons s rest ih =>
    unfold applySprings at h
    rcases ho : s.applyForce sq ms with _ | ms1
    · rw [ho] at h; exact absurd h (by simp)
    · rw [ho] at h
      simp only [Option.some_bind] at h
      exact ih h (Spring.applyForce_pinned ho hm hp)

lemma applySprings_forall {P : Mass → Prop} (hP : ∀ m f, P m → P (m.applyForce f))
    {sq : ℚ → ℚ} {springs : List Spring} {ms ms' : List Mass}
    (h : applySprings sq springs ms = some ms') (hall : ∀ m ∈ ms, P m) :
    ∀ m' ∈ ms', P m' := by
  induction springs generalizing ms with
  | nil => cases h; exact hall
  | cons s rest ih =>
    unfold applySprings at h
    rcases ho : s.applyForce sq ms with _ | ms1
    · rw [ho] at h; exact absurd h (by simp)
    · rw [ho] at h
      simp only [Option.some_bind] at h
      exact ih h (Spring.applyForce_forall hP ho hall)

/-! Lemmas about `gravityAndDamping` and `Cloth.update`. -/

lemma gravityAndDamping_kin (damping : ℚ) (ms : List Mass) (i : ℕ) :
    ((gravityAndDamping damping ms)[i]?).map Mass.kin = (ms[i]?).map Mass.kin := by
  unfold gravityAndDamping
  rw [List.getElem?_map]
  rcases ms[i]? with _ | m
  · rfl
  · show some _ = some m.kin
    rw [Mass.kin_applyForce, Mass.kin_applyForce]

lemma gravityAndDamping_pinned (damping : ℚ) {ms : List Mass} {i : ℕ} {m : Mass}
    (hm : ms[i]? = some m) (hp : m.pinned = true) :
    (gravityAndDamping damping ms)[i]? = some m := by
  unfold gravityAndDamping
  rw [List.getElem?_map, hm]
  simp [Mass.applyForce_of_pinned hp]

lemma gravityAndDamping_forall {P : Mass → Prop} (hP : ∀ m f, P m → P (m.applyForce f))
    (damping : ℚ) {ms : List Mass} (hall : ∀ m ∈ ms, P m) :
    ∀ m' ∈ gravityAndDamping damping ms, P m' := by
  intro m' hmem
  unfold gravityAndDamping at hmem
  obtain ⟨m, hm, rfl⟩ := List.mem_map.mp hmem
  exact hP _ _ (hP _ _ (hall m hm))

lemma Cloth.applyForces_some {sq : ℚ → ℚ} {c : Cloth} {damping : ℚ} {ms : List Mass}
    (h : c.applyForces sq damping = some ms) :
    ∃ ms1 ms2 ms3, applySprings sq c.structural_springs c.masses = some ms1 ∧
      applySprings sq c.shear_springs ms1 = some ms2 ∧
      applySprings sq c.bend_springs ms2 = some ms3 ∧
      ms = gravityAndDamping damping ms3 := by
  unfold Cloth.applyForces at h
  obtain ⟨t, ht, hg⟩ := Option.map_eq_some'.mp h
  obtain ⟨ms1, h1, ht2⟩ := Option.bind_eq_some.mp ht
  obtain ⟨ms2, h2, h3⟩ := Option.bind_eq_some.mp ht2
  exact ⟨ms1, ms2, t, h1, h2, h3, hg.symm⟩

lemma Cloth.update_some {sq : ℚ → ℚ} {c c' : Cloth} {dt damping mv : ℚ} {w : Vec3} {ws : ℚ}
    (h : c.update sq dt damping mv w ws = some c') :
    ∃ ms, c.applyForces sq damping = some ms ∧
      c' = { c with masses := ms.map fun m => m.update dt mv } := by
  unfold Cloth.update at h
  rcases hf : c.applyForces sq damping with _ | ms <;> rw [hf] at h
  · exact absurd h (by simp)
  · exact ⟨ms, rfl, (Option.some.inj h).symm⟩

lemma Cloth.update_pinned {sq : ℚ → ℚ} {c c' : Cloth} {dt damping mv : ℚ} {w : Vec3} {ws : ℚ}
    (h : c.update sq dt damping mv w ws = some c') {i : ℕ} {m : Mass}
    (hm : c.masses[i]? = some m) (hp : m.pinned = true) : c'.masses[i]? = some m := by
  obtain ⟨ms, hf, rfl⟩ := Cloth.update_some h
  obtain ⟨ms1, ms2, ms3, h1, h2, h3, rfl⟩ := Cloth.applyForces_some hf
  have hm3 : ms3[i]? = some m :=
    applySprings_pinned h3 (applySprings_pinned h2 (applySprings_pinned h1 hm hp) hp) hp
  show (List.map _ _)[i]? = some m
  rw [List.getElem?_map, gravityAndDamping_pinned damping hm3 hp]
  simp [Mass.update_of_pinned hp]

lemma Cloth.update_length {sq : ℚ → ℚ} {c c' : Cloth} {dt damping mv : ℚ} {w : Vec3} {ws : ℚ}
    (h : c.update sq dt damping mv w ws = some c') : c'.masses.length = c.masses.length := by
  obtain ⟨ms, hf, rfl⟩ := Cloth.update_some h
  obtain ⟨ms1, ms2, ms3, h1, h2, h3, rfl⟩ := Cloth.applyForces_some hf
  show (List.map _ _).length = _
  rw [List.length_map]
  unfold gravityAndDamping
  rw [List.length_map, applySprings_length h3, applySprings_length h2, applySprings_length h1]

/-! Counting helpers for the grid generation. -/

lemma sum_map_const_nat (n a : ℕ) : ((List.range n).map fun _ => a).sum = n * a := by
  induction n with
  | zero => simp
  | succ k ih =>
    rw [List.range_succ, List.map_append, List.sum_append, ih]
    simp [Nat.succ_mul]

lemma sum_map_ite_lt (n m a : ℕ) :
    ((List.range n).map fun k => if k < m then a else 0).sum = min n m * a := by
  induction n with
  | zero => simp
  | succ k ih =>
    rw [List.range_succ, List.map_append, List.sum_append, ih]
    by_cases h : k < m
    · have hmin : min (k + 1) m = min k m + 1 := by omega
      simp [h, hmin, Nat.succ_mul]
    · have hmin : min (k + 1) m = min k m := by omega
      simp [h, hmin]

lemma sum_map_ite_pos (n a : ℕ) :
    ((List.range n).map fun k => if 0 < k then a else 0).sum = (n - 1) * a := by
  induction n with
  | zero => simp
  | succ k ih =>
    rw [List.range_succ, List.map_append, List.sum_append, ih]
    cases k with
    | zero => simp
    | succ l => simp [Nat.succ_sub_one, Nat.succ_mul]

lemma structuralAt_length (rows cols : ℕ) (sp st : ℚ) (i j : ℕ) :
    (structuralAt rows cols sp st i j).length =
      (if j < cols - 1 then 1 else 0) + ((if 0 < j then 1 else 0) +
        ((if 0 < i then 1 else 0) + (if i < rows - 1 then 1 else 0))) := by
  unfold structuralAt
  rw [List.length_append, List.length_append, List.length_append]
  simp only [gt_iff_lt, apply_ite List.length, List.length_singleton, List.length_nil,
    Nat.add_assoc]

lemma structural_inner_length (rows cols : ℕ) (sp st : ℚ) (i : ℕ) :
    ((List.range cols).flatMap fun j => structuralAt rows cols sp st i j).length =
      (cols - 1) + ((cols - 1) +
        ((if 0 < i then cols else 0) + (if i < rows - 1 then cols else 0))) := by
  rw [List.length_flatMap]
  simp only [Function.comp_def, structuralAt_length]
  rw [List.sum_map_add, List.sum_map_add, List.sum_map_add]
  rw [sum_map_ite_lt, sum_map_ite_pos, sum_map_const_nat, sum_map_const_nat]
  have h1 : min cols (cols - 1) = cols - 1 := by omega
  rw [h1]
  by_cases h2 : 0 < i <;> by_cases h3 : i < rows - 1 <;> simp [h2, h3]

lemma structural_count (rows cols : ℕ) (sp st : ℚ) :
    (gridSprings rows cols (structuralAt rows cols sp st)).length =
      2 * rows * (cols - 1) + 2 * cols * (rows - 1) := by
  unfold gridSprings
  rw [List.length_flatMap]
  simp only [Function.comp_def, structural_inner_length]
  rw [List.sum_map_add, List.sum_map_add, List.sum_map_add]
  rw [sum_map_const_nat, sum_map_ite_pos, sum_map_ite_lt]
  have h1 : min rows (rows - 1) = rows - 1 := by omega
  rw [h1]
  ring

lemma initMasses_length (rows cols : ℕ) (sp : ℚ) :
    (initMasses rows cols sp).length = rows * cols := by
  unfold initMasses
  rw [List.length_flatMap]
  simp only [Function.comp_def, List.length_map, List.length_range]
  exact sum_map_const_nat rows cols

/-! Lemmas about `Cloth.run`, `Cloth.runN` and determinism. -/

lemma Cloth.run_pinned {sq : ℚ → ℚ} {c : Cloth} {ps : List StepParams} {c' : Cloth}
    (h : c.run sq ps = some c') {i : ℕ} {m : Mass}
    (hm : c.masses[i]? = some m) (hp : m.pinned = true) : c'.masses[i]? = some m := by
  induction ps generalizing c with
  | nil =>
    unfold Cloth.run at h
    obtain rfl := Option.some.inj h
    exact hm
  | cons p ps ih =>
    unfold Cloth.run at h
    obtain ⟨d, hd, hrest⟩ := Option.bind_eq_some.mp h
    exact ih hrest (Cloth.update_pinned hd hm hp)

lemma Cloth.update_mstate (sq : ℚ → ℚ) (dt damping mv : ℚ) (w : Vec3) (ws : ℚ)
    {c1 c2 : Cloth} (h : c1.mstate = c2.mstate) :
    (c1.update sq dt damping mv w ws).map Cloth.mstate =
      (c2.update sq dt damping mv w ws).map Cloth.mstate := by
  simp only [Cloth.mstate, Prod.mk.injEq] at h
  obtain ⟨hm, hs, hh, hb⟩ := h
  unfold Cloth.update Cloth.applyForces
  rw [hm, hs, hh, hb]
  rcases ((applySprings sq c2.structural_springs c2.masses).bind fun ms1 =>
      (applySprings sq c2.shear_springs ms1).bind fun ms2 =>
        applySprings sq c2.bend_springs ms2) with _ | ms
  · rfl
  · simp [Cloth.mstate, hs, hh, hb]

lemma Cloth.runN_mstate (sq : ℚ → ℚ) (dt damping mv : ℚ) (w : Vec3) (ws : ℚ) (n : ℕ) :
    ∀ {c1 c2 : Cloth}, c1.mstate = c2.mstate →
      (Cloth.runN sq dt damping mv w ws n c1).map Cloth.mstate =
        (Cloth.runN sq dt damping mv w ws n c2).map Cloth.mstate := by
  induction n with
  | zero =>
    intro c1 c2 h
    simpa [Cloth.runN] using h
  | succ k ih =>
    intro c1 c2 h
    have hu := Cloth.update_mstate sq dt damping mv w ws h
    unfold Cloth.runN
    rcases h1 : c1.update sq dt damping mv w ws with _ | d1
    · rcases h2 : c2.update sq dt damping mv w ws with _ | d2
      · rfl
      · rw [h1, h2] at hu
        exact absurd hu (by simp)
    · rcases h2 : c2.update sq dt damping mv w ws with _ | d2
      · rw [h1, h2] at hu
        exact absurd hu (by simp)
      · rw [h1, h2] at hu
        simp only [Option.map_some'] at hu
        simp only [Option.some_bind]
        exact ih (Option.some.inj hu)

/-! Claim theorems. -/

/-- Claim C1: over any completed sequence of `step()` calls, with arbitrary
per-call forces (spring, gravity, damping parameters and wind arguments), a
particle whose pinned flag is true is exactly the particle it started as:
its whole `Mass` value — in particular position and velocity — is
unchanged, because `Mass::apply_force` discards forces on pinned particles
and `Mass::update` skips them. -/
theorem claim1_pinned_frozen (sq : ℚ → ℚ) (c : Cloth) (ps : List StepParams) (c' : Cloth)
    (h : c.run sq ps = some c') (i : ℕ) (m : Mass)
    (hm : c.masses[i]? = some m) (hp : m.pinned = true) :
    c'.masses[i]? = some m :=
  Cloth.run_pinned h hm hp

/-- Witness for C1: one concrete step on the 2-by-2 cloth leaves the entry
of pinned particle 0 bit-for-bit at its creation value. -/
theorem claim1_pinned_frozen_witness :
    ((cloth22.run sqW [⟨1/100, 3/10, 1/2, Vec3.zero, 0⟩]).bind fun c' => c'.masses[0]?) =
      cloth22.masses[0]? ∧ (cloth22.masses[0]?).map Mass.pinned = some true := by
  obtain ⟨m, hm⟩ : ∃ m, cloth22.masses[0]? = some m := ⟨_, rfl⟩
  have hp : m.pinned = true := by
    have h2 : (cloth22.masses[0]?).map Mass.pinned = some true := rfl
    rw [hm, Option.map_some'] at h2
    exact Option.some.inj h2
  obtain ⟨c', hc'⟩ : ∃ d, cloth22.run sqW [⟨1/100, 3/10, 1/2, Vec3.zero, 0⟩] = some d :=
    ⟨_, rfl⟩
  refine ⟨?_, by rw [hm, Option.map_some', hp]⟩
  rw [hc', Option.some_bind, hm]
  exact claim1_pinned_frozen sqW cloth22 [⟨1/100, 3/10, 1/2, Vec3.zero, 0⟩] c' hc' 0 m hm hp

/-- Claim C2 (amended): `Cloth::update` is exactly the pipeline that applies
all structural spring forces, then all shear spring forces, then all bend
spring forces, each list in its enumeration order, then gravity and the
damping force per particle in index order, then integrates every particle
with `dt` and the shared mass; the `wind` and `wind_speed` arguments are
ignored, and no wind-drag force is applied. -/
theorem claim2_update_order_no_wind (sq : ℚ → ℚ) (c : Cloth) (dt damping mv : ℚ)
    (w : Vec3) (ws : ℚ) :
    c.update sq dt damping mv w ws = c.stepSpecNoWind sq dt damping mv := by
  unfold Cloth.update Cloth.applyForces Cloth.stepSpecNoWind
  rcases applySprings sq c.structural_springs c.masses with _ | ms1
  · rfl
  simp only [Option.some_bind]
  rcases applySprings sq c.shear_springs ms1 with _ | ms2
  · rfl
  simp only [Option.some_bind]
  rcases applySprings sq c.bend_springs ms2 with _ | ms3 <;> rfl

/-- Counterexample to C2 as stated: on a concrete cloth `Cloth::update`
returns the identical state for two different wind vectors and wind speeds
— so no wind-drag force enters the step — while the step is not a no-op. -/
theorem claim2_wind_ignored_counterexample :
    Cloth.update sqW cloth22 (1/100) (3/10) (1/2) ⟨0, 5, 0⟩ 3 =
      Cloth.update sqW cloth22 (1/100) (3/10) (1/2) Vec3.zero 0 ∧
    (Cloth.update sqW cloth22 (1/100) (3/10) (1/2) ⟨0, 5, 0⟩ 3).isSome = true :=
  ⟨rfl, by decide⟩

/-- Claim C3 (amended): a grid built with the given rows and cols has
exactly rows*cols particles, and its structural spring list has exactly
2*rows*(cols-1) + 2*cols*(rows-1) entries: every undirected grid edge is
generated twice, once from each endpoint, twice the count the claim
states. -/
theorem claim3_grid_counts (sq : ℚ → ℚ) (cols rows : ℕ) (sp st : ℚ) :
    (Cloth.new sq cols rows sp st).masses.length = rows * cols ∧
    (Cloth.new sq cols rows sp st).structural_springs.length =
      2 * rows * (cols - 1) + 2 * cols * (rows - 1) :=
  ⟨initMasses_length rows cols sp, structural_count rows cols sp st⟩

/-- Counterexample to C3 as stated: the rows = 1, cols = 2 grid generates
the unordered pair of particles 0 and 1 twice — once in each direction — so
the structural count is 2, not 2*1*2 - 1 - 2 = 1. -/
theorem claim3_structural_count_counterexample :
    (Cloth.new sqW 2 1 1 1).structural_springs.map (fun s => (s.a, s.b)) = [(0, 1), (1, 0)] ∧
    (Cloth.new sqW 2 1 1 1).structural_springs.length ≠ 2 * 1 * 2 - 1 - 2 := by
  decide

/-- Claim C4 is violated by the code: on the rows = 1, cols = 3 grid, whose
particle indices end at 2, the fourth shear guard — written `i < cols - 1`
where the symmetric check would be `i < rows - 1` — emits springs with
second endpoints 4 and 5, out of bounds for the 3-particle array, and the
step aborts with an out-of-bounds panic (modelled `none`) when
`Spring::apply_force` reaches them. -/
theorem claim4_shear_oob_evidence :
    (Cloth.new sqW 3 1 1 1).masses.length = 3 ∧
    (Cloth.new sqW 3 1 1 1).shear_springs.map (fun s => (s.a, s.b)) = [(0, 4), (1, 5)] ∧
    (¬ ∀ s ∈ (Cloth.new sqW 3 1 1 1).shear_springs, s.b < 3) ∧
    Cloth.update sqW (Cloth.new sqW 3 1 1 1) 1 0 1 Vec3.zero 0 = none := by
  decide

/-- Claim C5 (amended): neither construction nor step validates its
parameters.  `Cloth::update` cannot fail because of parameter values:
whenever every spring endpoint is in bounds it produces a new state for
arbitrary `dt`, `damping` and `mass`, including `dt ≤ 0` and `mass ≤ 0`;
and `Cloth::new` always returns a cloth (an empty one for a zero
dimension) rather than raising a configuration error. -/
theorem claim5_no_validation (sq : ℚ → ℚ) (c : Cloth) (dt damping mv : ℚ) (w : Vec3) (ws : ℚ)
    (hs : ∀ s ∈ c.structural_springs, s.a < c.masses.length ∧ s.b < c.masses.length)
    (hh : ∀ s ∈ c.shear_springs, s.a < c.masses.length ∧ s.b < c.masses.length)
    (hb : ∀ s ∈ c.bend_springs, s.a < c.masses.length ∧ s.b < c.masses.length) :
    (c.update sq dt damping mv w ws).isSome = true := by
  unfold Cloth.update Cloth.applyForces
  obtain ⟨ms1, h1⟩ := Option.isSome_iff_exists.mp (applySprings_isSome hs)
  rw [h1]
  simp only [Option.some_bind]
  have l1 := applySprings_length h1
  obtain ⟨ms2, h2⟩ := Option.isSome_iff_exists.mp
    (applySprings_isSome fun t ht => by rw [l1]; exact hh t ht)
  rw [h2]
  simp only [Option.some_bind]
  have l2 := applySprings_length h2
  obtain ⟨ms3, h3⟩ := Option.isSome_iff_exists.mp
    (applySprings_isSome fun t ht => by rw [l2, l1]; exact hb t ht)
  rw [h3]
  simp

/-- Witness for C5: the square 2-by-2 cloth, whose spring endpoints are all
in bounds, steps successfully with dt = 0 and mass = 0. -/
theorem claim5_no_validation_witness :
    (Cloth.update sqW cloth22 0 0 0 Vec3.zero 0).isSome = true :=
  claim5_no_validation sqW cloth22 0 0 0 Vec3.zero 0 (by decide) (by decide) (by decide)

/-- Counterexample to C5 as stated: construction with cols = 0 < 1 does not
fail — it returns an empty cloth — and a step with dt = 0 ≤ 0 and
mass = 0 ≤ 0 does not fail either; there is no error path at all. -/
theorem claim5_counterexample :
    (Cloth.new sqW 0 1 1 1).masses = [] ∧
    (Cloth.new sqW 0 1 1 1).structural_springs = [] ∧
    (Cloth.new sqW 0 1 1 1).shear_springs = [] ∧
    (Cloth.new sqW 0 1 1 1).bend_springs = [] := by
  decide

/-- Claim C6: `Spring::apply_force` applies the Hooke force to endpoint `a`
and its exact componentwise negation to endpoint `b`; when neither endpoint
is pinned the two accumulated acceleration contributions are exact
negations of one another. -/
theorem claim6_newton_third_law (sq : ℚ → ℚ) (s : Spring) (ms ms' : List Mass)
    (h : s.applyForce sq ms = some ms') (hab : s.a ≠ s.b) (ma mb : Mass)
    (hma : ms[s.a]? = some ma) (hmb : ms[s.b]? = some mb)
    (hpa : ma.pinned = false) (hpb : mb.pinned = false) :
    ms'[s.a]? = some { ma with
      acceleration := ma.acceleration + springForce sq s ms } ∧
    ms'[s.b]? = some { mb with
      acceleration := mb.acceleration + -springForce sq s ms } := by
  have ha : s.a < ms.length := (List.getElem?_eq_some_iff.mp hma).1
  have hb : s.b < ms.length := (List.getElem?_eq_some_iff.mp hmb).1
  have hgda : ms.getD s.a default = ma := by
    rw [List.getD_eq_getElem?_getD, hma]
    rfl
  rw [Spring.applyForce_eq h]
  set m1 := ms.set s.a ((ms.getD s.a default).applyForce (springForce sq s ms)) with hm1
  have hm1b : m1[s.b]? = some mb := by
    rw [hm1, List.getElem?_set_ne hab, hmb]
  have hgdb : m1.getD s.b default = mb := by
    rw [List.getD_eq_getElem?_getD, hm1b]
    rfl
  constructor
  · rw [List.getElem?_set_ne (Ne.symm hab), hm1, List.getElem?_set_self ha, hgda]
    simp [Mass.applyForce, hpa]
  · rw [List.getElem?_set_self (by simp [hm1, hb]), hgdb]
    simp [Mass.applyForce, hpb]

/-- Witness for C6: a concrete stretched spring between two free particles;
the two stored contributions are the spring force and its negation. -/
theorem claim6_newton_third_law_witness :
    (((Spring.new 0 1 1 2).applyForce sqW demoMasses).bind fun l => l[0]?) =
      some { Mass.new ⟨0, 0, 0⟩ false with
        acceleration := (Mass.new ⟨0, 0, 0⟩ false).acceleration +
          springForce sqW (Spring.new 0 1 1 2) demoMasses } ∧
    (((Spring.new 0 1 1 2).applyForce sqW demoMasses).bind fun l => l[1]?) =
      some { Mass.new ⟨3, 0, 0⟩ false with
        acceleration := (Mass.new ⟨3, 0, 0⟩ false).acceleration +
          -springForce sqW (Spring.new 0 1 1 2) demoMasses } := by
  obtain ⟨ms', hms'⟩ : ∃ l, (Spring.new 0 1 1 2).applyForce sqW demoMasses = some l :=
    ⟨_, rfl⟩
  have h := claim6_newton_third_law sqW (Spring.new 0 1 1 2) demoMasses ms' hms' (by decide)
    (Mass.new ⟨0, 0, 0⟩ false) (Mass.new ⟨3, 0, 0⟩ false) rfl rfl rfl rfl
  rw [hms']
  exact ⟨by rw [Option.some_bind]; exact h.1, by rw [Option.some_bind]; exact h.2⟩

/-- Claim C7: `normalize` of the zero vector has length `sq 0 = 0`, the
positive-length guard fails, and the zero vector is returned with no
division executed; `normalize` is a total function of its input. -/
theorem claim7_normalize_zero (sq : ℚ → ℚ) (h : sq 0 = 0) :
    Vec3.length sq Vec3.zero = 0 ∧ Vec3.normalize sq Vec3.zero = Vec3.zero := by
  have hl : Vec3.length sq Vec3.zero = 0 := by
    unfold Vec3.length Vec3.zero
    norm_num [h]
  refine ⟨hl, ?_⟩
  unfold Vec3.normalize
  rw [hl]
  norm_num

/-- Witness for C7: the concrete square root `Rat.sqrt` sends 0 to 0, and
normalisation of the zero vector returns the zero vector. -/
theorem claim7_normalize_zero_witness :
    sqW 0 = 0 ∧ Vec3.length sqW Vec3.zero = 0 ∧ Vec3.normalize sqW Vec3.zero = Vec3.zero := by
  have h0 : sqW 0 = 0 := by
    have h := Rat.sqrt_eq (0 : ℚ)
    simp only [mul_zero, abs_zero] at h
    exact h
  exact ⟨h0, claim7_normalize_zero sqW h0⟩

/-- Claim C8 is violated by the code: in the rows = 1, cols = 2
configuration of the specification's end-to-end example, the hard-coded pin
policy pins particle 1 too (it is the `(0, cols-1)` corner), and the shear
generation emits the out-of-bounds spring (0, 3) for the 2-particle array,
so the single `step()` aborts with an out-of-bounds panic (modelled `none`)
instead of giving particle 1 the specified velocity `(0, -0.3924, 0)`. -/
theorem claim8_spec_example_evidence :
    (Cloth.new sqW 2 1 1 100).masses.map Mass.pinned = [true, true] ∧
    (Cloth.new sqW 2 1 1 100).shear_springs.map (fun s => (s.a, s.b)) = [(0, 3)] ∧
    (Cloth.new sqW 2 1 1 100).masses.length = 2 ∧
    Cloth.update sqW (Cloth.new sqW 2 1 1 100) (1/50) 0 (1/2) Vec3.zero 0 = none := by
  decide

/-- Claim C9: `step()` is deterministic — two runs that start from identical
particle and spring state and use identical parameters produce identical
position lists after N steps, for every N. -/
theorem claim9_deterministic (sq : ℚ → ℚ) (dt damping mv : ℚ) (w : Vec3) (ws : ℚ)
    (c1 c2 : Cloth) (h : c1.mstate = c2.mstate) (n : ℕ) :
    (Cloth.runN sq dt damping mv w ws n c1).map Cloth.positions =
      (Cloth.runN sq dt damping mv w ws n c2).map Cloth.positions := by
  have hms := Cloth.runN_mstate sq dt damping mv w ws n h
  have hpos : ∀ c : Cloth, c.positions = c.mstate.1.map Mass.position := fun c => rfl
  calc (Cloth.runN sq dt damping mv w ws n c1).map Cloth.positions
      = ((Cloth.runN sq dt damping mv w ws n c1).map Cloth.mstate).map
          (fun t => t.1.map Mass.position) := by
        rw [Option.map_map]
        exact Option.map_congr fun c _ => hpos c
    _ = ((Cloth.runN sq dt damping mv w ws n c2).map Cloth.mstate).map
          (fun t => t.1.map Mass.position) := by rw [hms]
    _ = (Cloth.runN sq dt damping mv w ws n c2).map Cloth.positions := by
        rw [Option.map_map]
        exact (Option.map_congr fun c _ => hpos c).symm

/-- Witness for C9: two cloths that agree on particles and springs but
differ in the unused `rows` bookkeeping field produce identical positions
after one step. -/
theorem claim9_deterministic_witness :
    (Cloth.runN sqW (1/100) (3/10) (1/2) Vec3.zero 0 1 cloth22).map Cloth.positions =
      (Cloth.runN sqW (1/100) (3/10) (1/2) Vec3.zero 0 1
        { cloth22 with rows := 7 }).map Cloth.positions :=
  claim9_deterministic sqW (1/100) (3/10) (1/2) Vec3.zero 0 cloth22
    { cloth22 with rows := 7 } rfl 1

/-- Claim C10: particles are created with zero acceleration, and every
`Cloth::update` that completes returns every particle with exactly zero
acceleration — unpinned particles because `Mass::update` resets it after
integrating, pinned particles because `Mass::apply_force` never accumulates
into them, given that (as along any trajectory from construction) pinned
particles enter the step with zero acceleration. -/
theorem claim10_acceleration_zero (sq : ℚ → ℚ) (cols rows : ℕ) (sp st : ℚ) :
    (∀ pos pinned, (Mass.new pos pinned).acceleration = Vec3.zero) ∧
    (∀ m ∈ (Cloth.new sq cols rows sp st).masses, m.acceleration = Vec3.zero) ∧
    (∀ (c c' : Cloth) (dt damping mv : ℚ) (w : Vec3) (ws : ℚ),
      (∀ m ∈ c.masses, m.pinned = true → m.acceleration = Vec3.zero) →
      c.update sq dt damping mv w ws = some c' →
      ∀ m ∈ c'.masses, m.acceleration = Vec3.zero) := by
  refine ⟨fun pos pinned => rfl, ?_, ?_⟩
  · intro m hm
    unfold Cloth.new initMasses at hm
    rw [List.mem_flatMap] at hm
    obtain ⟨i, _, hmem⟩ := hm
    rw [List.mem_map] at hmem
    obtain ⟨j, _, rfl⟩ := hmem
    by_cases hc : i = 0 ∧ j = 0 ∨ i = 0 ∧ j = cols - 1 <;> simp [hc, Mass.new]
  · intro c c' dt damping mv w ws hinv hup
    obtain ⟨ms, hf, rfl⟩ := Cloth.update_some hup
    obtain ⟨ms1, ms2, ms3, h1, h2, h3, rfl⟩ := Cloth.applyForces_some hf
    have hP : ∀ (m : Mass) f, (m.pinned = true → m.acceleration = Vec3.zero) →
        ((m.applyForce f).pinned = true → (m.applyForce f).acceleration = Vec3.zero) :=
      fun m f hm => Mass.pinned_accZero_applyForce hm f
    have i3 := applySprings_forall hP h3 (applySprings_forall hP h2
      (applySprings_forall hP h1 hinv))
    have i4 := gravityAndDamping_forall hP damping i3
    intro m hm
    obtain ⟨m0, hm0, rfl⟩ := List.mem_map.mp hm
    rcases hpin : m0.pinned with _ | _
    · simp [Mass.update, hpin]
    · rw [Mass.update_of_pinned hpin]
      exact i4 m0 hm0 hpin

/-- Witness for C10: after one concrete step on the 2-by-2 cloth, the free
particle 3 has exactly zero acceleration. -/
theorem claim10_acceleration_zero_witness :
    ((Cloth.update sqW cloth22 (1/100) (3/10) (1/2) Vec3.zero 0).bind fun c' =>
      c'.masses[3]?).map Mass.acceleration = some Vec3.zero := by
  obtain ⟨c', hc'⟩ : ∃ d, Cloth.update sqW cloth22 (1/100) (3/10) (1/2) Vec3.zero 0 = some d :=
    ⟨_, rfl⟩
  rw [hc', Option.some_bind]
  have hall := (claim10_acceleration_zero sqW 2 2 1 1).2.2 cloth22 c' (1/100) (3/10) (1/2)
    Vec3.zero 0 (by decide) hc'
  have hlen : c'.masses.length = 4 := by
    rw [Cloth.update_length hc']
    decide
  rcases hm : c'.masses[3]? with _ | m
  · rw [List.getElem?_eq_none_iff] at hm
    omega
  · rw [Option.map_some', hall m (List.getElem?_mem hm)]

end ClothSim
